import Mathlib

/-
  Verification of the OLX GPU-listing scraper against its specification.

  The development shallowly embeds the two scraper variants of the repository
  (src/olx_scraper/olx_scraper.py and src/main_oop.py).  Pure string
  manipulation from the Python source is reproduced on `List Char` so that
  every definition is executable and reducible by `decide` / `rfl`.
  Effectful collaborators (HTTP transport, HTML tree construction, the file
  system) are represented by explicit function arguments, exactly at the
  boundaries the spec declares external.
-/

namespace OlxScraper

/-! ## Generic string helpers

Python string primitives (`in`, `replace`, `split`, `strip`, `lower`,
`int(...)`) modelled on `List Char`, so that everything is structural
recursion and evaluates inside the kernel. -/

/-- Bool test: is the first list a prefix of the second (char-wise)? -/
def isPrefixB : List Char → List Char → Bool
  | [], _ => true
  | _ :: _, [] => false
  | a :: as, b :: bs => a == b && isPrefixB as bs

/-- Bool test: does `needle` occur contiguously inside the second list?
Mirrors Python's `needle in hay` on strings. -/
def isInfixB (needle : List Char) : List Char → Bool
  | [] => needle.isEmpty
  | c :: rest => isPrefixB needle (c :: rest) || isInfixB needle rest

/-- Python's `hay.__contains__(needle)`, i.e. `needle in hay`. -/
def pyContains (hay needle : String) : Bool :=
  isInfixB needle.data hay.data

/-- Fuel-driven worker for `pyReplace`; fuel `s.length` always suffices
because every step consumes at least one character of `s`. -/
def replaceAllFuel : Nat → List Char → List Char → List Char → List Char
  | 0, s, _, _ => s
  | fuel + 1, s, pat, rep =>
    match s with
    | [] => []
    | c :: rest =>
      if !pat.isEmpty && isPrefixB pat (c :: rest) then
        rep ++ replaceAllFuel fuel ((c :: rest).drop pat.length) pat rep
      else
        c :: replaceAllFuel fuel rest pat rep

/-- Python's `s.replace(pat, rep)` for a non-empty pattern: replace every
non-overlapping occurrence, scanning left to right. -/
def pyReplace (s pat rep : String) : String :=
  String.mk (replaceAllFuel s.data.length s.data pat.data rep.data)

/-- Python's `s.split(",")[0]`: the prefix of `s` before the first comma. -/
def takeUntilComma (s : String) : String :=
  String.mk (s.data.takeWhile (fun c => c ≠ ','))

/-- Strip whitespace from both ends (Python `str.strip()`). -/
def trimChars (cs : List Char) : List Char :=
  ((cs.dropWhile Char.isWhitespace).reverse.dropWhile Char.isWhitespace).reverse

/-- Digits-only decimal reading; `none` on any non-digit character. -/
def digitsToNatAux : List Char → Nat → Option Nat
  | [], acc => some acc
  | c :: cs, acc =>
    if c.isDigit then digitsToNatAux cs (acc * 10 + (c.toNat - '0'.toNat))
    else none

/-- Decimal value of a non-empty all-digit list, else `none`. -/
def digitsToNat : List Char → Option Nat
  | [] => none
  | c :: cs => digitsToNatAux (c :: cs) 0

/-- Python's `int(s)`: optional surrounding whitespace, optional sign,
then a non-empty digit run; anything else raises `ValueError`, modelled as
`none`. -/
def pyInt (s : String) : Option Int :=
  match trimChars s.data with
  | '-' :: ds => (digitsToNat ds).map (fun n => -(n : Int))
  | '+' :: ds => (digitsToNat ds).map (fun n => (n : Int))
  | ds => (digitsToNat ds).map (fun n => (n : Int))

/-! ## Title normalisation and the model catalog -/

/-- `text.lower().replace(" ", "")` from `find_gpu_model`. -/
def normTitle (s : String) : String :=
  String.mk ((s.data.map Char.toLower).filter (fun c => c ≠ ' '))

/-- `model.lower().strip().replace(" ", "")` from `find_gpu_model`. -/
def normModel (s : String) : String :=
  String.mk ((trimChars (s.data.map Char.toLower)).filter (fun c => c ≠ ' '))

/-- The built-in catalog `self.gpu_models`, transcribed verbatim from the
source (identical in both variants).  The Python list literal is missing a
comma between `"RTX 4090"` and `"RX 460"`, so adjacent-literal
concatenation produces the single element `"RTX 4090RX 460"`. -/
def gpu_models : List String :=
  [ "GTX 1050", "GTX 1050 Ti", "GTX 1060", "GTX 1070", "GTX 1070 Ti",
    "GTX 1080", "GTX 1080 Ti", "GTX 1650", "GTX 1650 Super", "GTX 1660",
    "GTX 1660 Ti", "GTX 1660 Super", "RTX 2060", "RTX 2060 Super",
    "RTX 2070", "RTX 2070 Super", "RTX 2080", "RTX 2080 Super",
    "RTX 2080 Ti", "RTX 3060", "RTX 3060 Ti", "RTX 3070", "RTX 3070 Ti",
    "RTX 3080", "RTX 3080 Ti", "RTX 3090", "RTX 3090 Ti", "RTX 4060",
    "RTX 4060 Ti", "RTX 4070", "RTX 4070 Ti", "RTX 4080",
    "RTX 4090RX 460",
    "RX 470", "RX 480", "RX 550", "RX 5500", "RX 5500 XT", "RX 560",
    "RX 5600", "RX 5600 XT", "RX 570", "RX 5700", "RX 5700 XT", "RX 580",
    "RX 590", "RX 6500", "RX 6500 XT", "RX 6600", "RX 6600 XT",
    "RX 6650 XT", "RX 6700", "RX 6700 XT", "RX 6750 XT", "RX 6800",
    "RX 6800 XT", "RX 6900 XT", "RX 6950 XT", "RX 7600", "RX 7700 XT",
    "RX 7800 XT", "RX 7900 XT", "RX 7900 XTX",
    "A380", "A580", "A750", "A770" ]

/-- Errors raised by model resolution (`ValueError` payloads in Python). -/
inductive MatchError where
  | noMatch (text : String)
  | multipleMatches (found : List String) (text : String)
deriving DecidableEq

/-- The substring-containment match collection shared by both resolver
variants: catalog entries whose normalised form occurs inside the
normalised title, in catalog order. -/
def gpuMatches (models : List String) (text : String) : List String :=
  models.filter (fun m => isInfixB (normModel m).data (normTitle text).data)

/-- First-maximum by Python `len` (character count), as computed by
`max(matches, key=len)`: later elements replace the current best only when
strictly longer. -/
def maxByLen : List String → String
  | [] => ""
  | x :: xs => xs.foldl (fun best y => if best.length < y.length then y else best) x

/-- `OLXScraper.find_gpu_model` from src/olx_scraper/olx_scraper.py:
accepts exactly 1 or 3 matches (`len(matches) in [1, 3]`) and then takes
the longest; raises `ValueError` on 0 matches and on any other count. -/
def find_gpu_model (models : List String) (text : String) : Except MatchError String :=
  if (gpuMatches models text).length = 1 ∨ (gpuMatches models text).length = 3 then
    Except.ok (maxByLen (gpuMatches models text))
  else if (gpuMatches models text).length = 0 then
    Except.error (MatchError.noMatch text)
  else
    Except.error (MatchError.multipleMatches (gpuMatches models text) text)

/-- `OLXScraper.find_gpu_model` from src/main_oop.py: accepts exactly one
match (`matches[0]`), raises `ValueError` otherwise. -/
def findGpuModelOop (models : List String) (text : String) : Except MatchError String :=
  match gpuMatches models text with
  | [m] => Except.ok m
  | [] => Except.error (MatchError.noMatch text)
  | ms => Except.error (MatchError.multipleMatches ms text)

/-- C1: the claim asserts that two matching catalog entries of strictly
different lengths resolve to the longer one.  Evaluating the code at the
claim's own example refutes it: for `"RTX 3080 Ti 12GB"` both `"RTX 3080"`
and `"RTX 3080 Ti"` match (different lengths), yet both variants raise the
multiple-match `ValueError` — the packaged variant because `2` is not in
`[1, 3]`, the `main_oop` variant because it accepts only a single match. -/
theorem find_gpu_model_two_matches_fails :
    gpuMatches gpu_models "RTX 3080 Ti 12GB" = ["RTX 3080", "RTX 3080 Ti"] ∧
    String.length "RTX 3080" ≠ String.length "RTX 3080 Ti" ∧
    find_gpu_model gpu_models "RTX 3080 Ti 12GB" =
      Except.error (MatchError.multipleMatches ["RTX 3080", "RTX 3080 Ti"] "RTX 3080 Ti 12GB") ∧
    findGpuModelOop gpu_models "RTX 3080 Ti 12GB" =
      Except.error (MatchError.multipleMatches ["RTX 3080", "RTX 3080 Ti"] "RTX 3080 Ti 12GB") := by
  refine ⟨by decide, by decide, by rfl, by rfl⟩

/-- C2: the claim asserts `find_gpu_model` is the identity on every catalog
entry.  Evaluating the code at the catalog entry `"GTX 1050 Ti"` refutes
it: the entry's normalised form also contains the entry `"GTX 1050"`, the
resulting two matches are rejected by both variants, and the call raises
the multiple-match `ValueError` instead of returning the entry. -/
theorem find_gpu_model_not_identity_on_catalog :
    "GTX 1050 Ti" ∈ gpu_models ∧
    find_gpu_model gpu_models "GTX 1050 Ti" =
      Except.error (MatchError.multipleMatches ["GTX 1050", "GTX 1050 Ti"] "GTX 1050 Ti") ∧
    findGpuModelOop gpu_models "GTX 1050 Ti" =
      Except.error (MatchError.multipleMatches ["GTX 1050", "GTX 1050 Ti"] "GTX 1050 Ti") := by
  refine ⟨by decide, by rfl, by rfl⟩

/-- C9: the missing comma in the Python list literal concatenates
`"RTX 4090"` and `"RX 460"` into the single catalog element
`"RTX 4090RX 460"`; neither name is present on its own, and any title
normalising to `"rtx4090"` or `"rx460"` yields zero matches, so both
resolver variants raise the no-match `ValueError`. -/
theorem gpu_models_concat_no_match :
    "RTX 4090RX 460" ∈ gpu_models ∧
    "RTX 4090" ∉ gpu_models ∧
    "RX 460" ∉ gpu_models ∧
    (∀ t : String, normTitle t = "rtx4090" →
      find_gpu_model gpu_models t = Except.error (MatchError.noMatch t) ∧
      findGpuModelOop gpu_models t = Except.error (MatchError.noMatch t)) ∧
    (∀ t : String, normTitle t = "rx460" →
      find_gpu_model gpu_models t = Except.error (MatchError.noMatch t) ∧
      findGpuModelOop gpu_models t = Except.error (MatchError.noMatch t)) := by
  refine ⟨by decide, by decide, by decide, ?_, ?_⟩
  · intro t h
    have hm : gpuMatches gpu_models t = [] := by
      simp only [gpuMatches, h]
      decide
    constructor
    · simp [find_gpu_model, hm]
    · simp [findGpuModelOop, hm]
  · intro t h
    have hm : gpuMatches gpu_models t = [] := by
      simp only [gpuMatches, h]
      decide
    constructor
    · simp [find_gpu_model, hm]
    · simp [findGpuModelOop, hm]

/-- C9 witness: the bare titles `"RTX 4090"` and `"RX 460"` normalise to
the two forms in question, so resolution fails on them concretely. -/
theorem gpu_models_concat_no_match_witness :
    (find_gpu_model gpu_models "RTX 4090" = Except.error (MatchError.noMatch "RTX 4090") ∧
      findGpuModelOop gpu_models "RTX 4090" = Except.error (MatchError.noMatch "RTX 4090")) ∧
    (find_gpu_model gpu_models "RX 460" = Except.error (MatchError.noMatch "RX 460") ∧
      findGpuModelOop gpu_models "RX 460" = Except.error (MatchError.noMatch "RX 460")) :=
  ⟨gpu_models_concat_no_match.2.2.2.1 "RTX 4090" (by decide),
   gpu_models_concat_no_match.2.2.2.2 "RX 460" (by decide)⟩

/-! ## The offer parser (src/olx_scraper/olx_scraper.py, `parse_advert`) -/

/-- The `State` enum of the packaged scraper, including the `ERROR`
fallback variant. -/
inductive State where
  | used
  | new
  | damaged
  | error
deriving DecidableEq

/-- The `Advert` dataclass of the packaged scraper. -/
structure Advert where
  model : String
  price : Int
  state : State
  raw_title : String
deriving DecidableEq

/-- One offer card's relevant DOM contents: the text of the first `h6`
element, of the price `p` element and of the condition `span` element,
each absent when the element is missing.  This is the data `parse_advert`
reads from its `Tag` argument; tree navigation itself is the external
HTML-parser collaborator. -/
structure Fragment where
  title : Option String
  priceText : Option String
  stateText : Option String
deriving DecidableEq

/-- The price-string reduction of `parse_advert`:
`price_text.replace("zł", "").replace(" ", "").replace("donegocjacji", "").split(",")[0]`
when `price_text` is non-empty, else `""`. -/
def priceString (price_text : String) : String :=
  if price_text = "" then ""
  else takeUntilComma (pyReplace (pyReplace (pyReplace price_text "zł" "") " " "") "donegocjacji" "")

/-- The condition mapping of `parse_advert`: `state` starts as
`State.ERROR` and the `match` overwrites it only on the three exact
tokens; a missing element matches none of the cases. -/
def parseState : Option String → State
  | some t =>
    if t = "Używane" then State.used
    else if t = "Nowe" then State.new
    else if t = "Uszkodzone" then State.damaged
    else State.error
  | none => State.error

/-- `OLXScraper.parse_advert` of the packaged scraper.  `Except.ok none`
is the barter skip (`return None`), `Except.ok (some a)` a recorded
advert, and `Except.error` a `ValueError` escaping the method.  The
Python `try` block evaluates `find_gpu_model(title)` and then
`int(price)`; a resolution failure is caught and downgraded, but the
`except` branch evaluates `int(price)` again, so an unparseable price
string raises out of the method on either path. -/
def parse_advert (models : List String) (frag : Fragment) : Except String (Option Advert) :=
  if pyContains (frag.priceText.getD "") "Zamienię" then Except.ok none
  else
    match pyInt (priceString (frag.priceText.getD "")) with
    | none =>
      Except.error ("ValueError: invalid literal for int(): " ++ priceString (frag.priceText.getD ""))
    | some p =>
      match find_gpu_model models (frag.title.getD "") with
      | Except.ok m =>
        Except.ok (some { model := m, price := p, state := parseState frag.stateText,
                          raw_title := frag.title.getD "" })
      | Except.error _ =>
        Except.ok (some { model := "", price := p, state := State.error,
                          raw_title := frag.title.getD "" })

/-- C3 counterexample: on the spec's own example `"Cena do negocjacji
2000 zł"` the replace chain leaves the residue `"Cena2000"` (only the
exact substring `"donegocjacji"` is stripped, never the `"Cena"` prefix),
`int` fails, and `parse_advert` propagates the `ValueError` instead of
producing the price 2000. -/
theorem parse_advert_cena_negocjacji_errors :
    priceString "Cena do negocjacji 2000 zł" = "Cena2000" ∧
    parse_advert gpu_models
        { title := some "RTX 3080", priceText := some "Cena do negocjacji 2000 zł",
          stateText := some "Nowe" } =
      Except.error ("ValueError: invalid literal for int(): " ++ "Cena2000") ∧
    parse_advert gpu_models
        { title := some "RTX 3080", priceText := some "Cena do negocjacji 2000 zł",
          stateText := some "Nowe" } ≠
      Except.ok (some { model := "RTX 3080", price := 2000, state := State.new,
                        raw_title := "RTX 3080" }) := by
  refine ⟨by decide, by rfl, ?_⟩
  intro h
  exact Except.noConfusion ((by rfl :
    parse_advert gpu_models
        { title := some "RTX 3080", priceText := some "Cena do negocjacji 2000 zł",
          stateText := some "Nowe" } =
      Except.error ("ValueError: invalid literal for int(): " ++ "Cena2000")).symm.trans h)

/-- C3 amended: `"1 500 zł"` parses to 1500 and a price text containing
`"Zamienię"` makes `parse_advert` return the skip marker, as claimed; the
negotiable-price qualifier, however, is only stripped as the bare
space-free substring `"donegocjacji"`, so `"do negocjacji 2000 zł"`
yields 2000 while the spec's `"Cena do negocjacji 2000 zł"` raises. -/
theorem parse_advert_price_extraction_amended :
    parse_advert gpu_models
        { title := some "RTX 3080", priceText := some "1 500 zł", stateText := some "Nowe" } =
      Except.ok (some { model := "RTX 3080", price := 1500, state := State.new,
                        raw_title := "RTX 3080" }) ∧
    parse_advert gpu_models
        { title := some "RTX 3080", priceText := some "Zamienię na laptopa",
          stateText := some "Nowe" } =
      Except.ok none ∧
    parse_advert gpu_models
        { title := some "RTX 3080", priceText := some "do negocjacji 2000 zł",
          stateText := some "Nowe" } =
      Except.ok (some { model := "RTX 3080", price := 2000, state := State.new,
                        raw_title := "RTX 3080" }) := by
  exact ⟨by rfl, by rfl, by rfl⟩

/-- C4: the claim says `parse_advert` never raises and records a sentinel
listing when the price text does not reduce to digits or the price
element is missing.  Evaluating the code refutes it: the `except ValueError`
branch recomputes `int(price)`, which raises again, so both a missing
price element and a non-numeric price text make `parse_advert` propagate
the `ValueError` instead of recording `model=""`, `condition=ERROR`. -/
theorem parse_advert_bad_price_propagates :
    parse_advert gpu_models
        { title := some "RTX 3080", priceText := none, stateText := some "Nowe" } =
      Except.error ("ValueError: invalid literal for int(): " ++ "") ∧
    parse_advert gpu_models
        { title := some "RTX 3080", priceText := some "abc zł", stateText := some "Nowe" } =
      Except.error ("ValueError: invalid literal for int(): " ++ "abc") := by
  exact ⟨by rfl, by rfl⟩

/-- C8: the condition mapping is total — the three tokens map to their
variants by exact match, everything else (including a missing element)
maps to the `ERROR` fallback — and an unrecognized condition token alone
never drops a listing: whenever the offer is not a barter skip and its
price reduces to an integer, `parse_advert` still records an advert,
carrying the `ERROR` condition. -/
theorem parseState_total_and_no_drop :
    (parseState (some "Używane") = State.used ∧
     parseState (some "Nowe") = State.new ∧
     parseState (some "Uszkodzone") = State.damaged ∧
     parseState none = State.error) ∧
    (∀ s : String, s ≠ "Używane" → s ≠ "Nowe" → s ≠ "Uszkodzone" →
      parseState (some s) = State.error) ∧
    (∀ (frag : Fragment) (s : String), frag.stateText = some s →
      s ≠ "Używane" → s ≠ "Nowe" → s ≠ "Uszkodzone" →
      pyContains (frag.priceText.getD "") "Zamienię" = false →
      (pyInt (priceString (frag.priceText.getD ""))).isSome = true →
      ∃ a : Advert, parse_advert gpu_models frag = Except.ok (some a) ∧ a.state = State.error) := by
  refine ⟨⟨by rfl, by rfl, by rfl, by rfl⟩, ?_, ?_⟩
  · intro s h1 h2 h3
    simp [parseState, h1, h2, h3]
  · intro frag s hst h1 h2 h3 hbart hsome
    obtain ⟨p, hp⟩ := Option.isSome_iff_exists.mp hsome
    have hstate : parseState frag.stateText = State.error := by
      rw [hst]
      simp [parseState, h1, h2, h3]
    rw [parse_advert, hbart, hp]
    simp only [Bool.false_eq_true, if_false]
    cases hfm : find_gpu_model gpu_models (frag.title.getD "") with
    | ok m => exact ⟨_, rfl, hstate⟩
    | error e => exact ⟨_, rfl, rfl⟩

/-- C8 witness: a concrete offer with the unrecognized condition token
`"Bardzo dobry"` and price text `"100 zł"` is still recorded, with the
`ERROR` condition. -/
theorem parseState_total_and_no_drop_witness :
    ∃ a : Advert,
      parse_advert gpu_models
          { title := some "RTX 3080", priceText := some "100 zł",
            stateText := some "Bardzo dobry" } =
        Except.ok (some a) ∧ a.state = State.error :=
  parseState_total_and_no_drop.2.2
    { title := some "RTX 3080", priceText := some "100 zł", stateText := some "Bardzo dobry" }
    "Bardzo dobry" rfl (by decide) (by decide) (by decide) (by decide) (by decide)

/-! ## The fetcher (src/olx_scraper/olx_scraper.py, `fetch_page`)

The HTTP collaborator is abstracted as `attempt : Nat → Option String`,
the outcome of the `i`-th `session.get` + `raise_for_status` pair:
`some body` for a successful response, `none` for a transport error or a
non-success status (both surface as `requests.RequestException`).  The
observable side effects are recorded as a trace of events. -/

/-- One observable side effect of the fetcher: the politeness
`time.sleep(self.delay)` or the network request itself. -/
inductive FetchEvent where
  | sleep
  | request
deriving DecidableEq

/-- The `for _ in range(retries)` loop of `fetch_page`: each iteration
sleeps, performs the request, returns the body on success and swallows
the exception otherwise; after the loop the final `Exception` is raised
with the URL and the retry count. -/
def fetchLoop (attempt : Nat → Option String) (url : String) (retries : Nat) :
    Nat → Nat → List FetchEvent × Except String String
  | 0, _ =>
    ([], Except.error ("Failed to fetch page " ++ url ++ " after " ++ Nat.repr retries ++ " retries"))
  | rem + 1, i =>
    match attempt i with
    | some body => ([FetchEvent.sleep, FetchEvent.request], Except.ok body)
    | none =>
      (FetchEvent.sleep :: FetchEvent.request ::
        (fetchLoop attempt url retries rem (i + 1)).1,
       (fetchLoop attempt url retries rem (i + 1)).2)

/-- `OLXScraper.fetch_page` of the packaged scraper (default
`retries = 3`), returning its event trace and its result. -/
def fetch_page (attempt : Nat → Option String) (url : String) (retries : Nat) :
    List FetchEvent × Except String String :=
  fetchLoop attempt url retries retries 0

/-- C7: with the default budget of 3 attempts, every attempt is preceded
by exactly one politeness delay (the first included); if all 3 attempts
fail the fetcher raises the error naming the URL and the attempt count,
and the first successful attempt `k` returns the response body after
`k + 1` sleep-request pairs. -/
theorem fetch_page_retry_contract :
    (∀ (attempt : Nat → Option String) (url : String),
      (∀ i, i < 3 → attempt i = none) →
      fetch_page attempt url 3 =
        ([FetchEvent.sleep, FetchEvent.request, FetchEvent.sleep, FetchEvent.request,
          FetchEvent.sleep, FetchEvent.request],
         Except.error ("Failed to fetch page " ++ url ++ " after " ++ Nat.repr 3 ++ " retries"))) ∧
    (∀ (attempt : Nat → Option String) (url body : String) (k : Nat),
      k < 3 → (∀ i, i < k → attempt i = none) → attempt k = some body →
      fetch_page attempt url 3 =
        (List.flatten (List.replicate (k + 1) [FetchEvent.sleep, FetchEvent.request]),
         Except.ok body)) := by
  constructor
  · intro attempt url h
    have h0 : attempt 0 = none := h 0 (by omega)
    have h1 : attempt 1 = none := h 1 (by omega)
    have h2 : attempt 2 = none := h 2 (by omega)
    simp [fetch_page, fetchLoop, h0, h1, h2]
  · intro attempt url body k hk hall hsucc
    have hcase : k = 0 ∨ k = 1 ∨ k = 2 := by omega
    rcases hcase with rfl | rfl | rfl
    · simp [fetch_page, fetchLoop, hsucc]
    · have h0 : attempt 0 = none := hall 0 (by omega)
      simp [fetch_page, fetchLoop, h0, hsucc]
    · have h0 : attempt 0 = none := hall 0 (by omega)
      have h1 : attempt 1 = none := hall 1 (by omega)
      simp [fetch_page, fetchLoop, h0, h1, hsucc]

/-- C7 witness: an attempt sequence that fails once and then succeeds
returns the body after two sleep-request pairs. -/
theorem fetch_page_retry_contract_witness :
    fetch_page (fun i => if i = 1 then some "BODY" else none) "http://olx.pl/x" 3 =
      (List.flatten (List.replicate 2 [FetchEvent.sleep, FetchEvent.request]),
       Except.ok "BODY") :=
  fetch_page_retry_contract.2 (fun i => if i = 1 then some "BODY" else none)
    "http://olx.pl/x" "BODY" 1 (by omega)
    (fun i hi => by
      have h0 : i = 0 := by omega
      subst h0
      rfl)
    rfl

/-! ## The crawl loop (src/olx_scraper/olx_scraper.py, `scrape`)

A page of the site is abstracted as its parsed content: the adverts its
offer cards yield (`get_offers`) and the next-page URL (`get_next_page`).
`world url = none` means `fetch_page url` exhausted its retries and
raised; `world url = some page` means the fetch succeeded and the page
parsed to `page`. -/

/-- One fetched-and-parsed listing page. -/
structure Page where
  offers : List Advert
  next : Option String
deriving DecidableEq

/-- The failure `scrape` can observe: the `Exception` raised by
`fetch_page` after its retries. -/
inductive FetchError where
  | fetchFailed (url : String)
deriving DecidableEq

/-- The `while current_url and pages_parsed < page_limit` loop of
`scrape`, with `rem = page_limit - pages_parsed`.  The result carries the
accumulated adverts together with the final `pages_parsed` count; an
`Except.error` is the fetch exception propagating to the caller (the
method has `try/finally` for closing the session, but no `except`). -/
def scrapeLoop (world : String → Option Page) :
    Option String → Nat → List Advert → Nat → Except FetchError (List Advert × Nat)
  | _, 0, acc, parsed => Except.ok (acc, parsed)
  | none, _ + 1, acc, parsed => Except.ok (acc, parsed)
  | some url, rem + 1, acc, parsed =>
    match world url with
    | none => Except.error (FetchError.fetchFailed url)
    | some page => scrapeLoop world page.next rem (acc ++ page.offers) (parsed + 1)

/-- `OLXScraper.scrape`: start at the base URL with no pages parsed. -/
def scrape (world : String → Option Page) (page_limit : Nat) (base_url : String) :
    Except FetchError (List Advert × Nat) :=
  scrapeLoop world (some base_url) page_limit [] 0

/-- An absent next-page URL ends the crawl immediately. -/
theorem scrapeLoop_none (world : String → Option Page) (rem : Nat) (acc : List Advert)
    (parsed : Nat) : scrapeLoop world none rem acc parsed = Except.ok (acc, parsed) := by
  cases rem <;> rfl

/-- C5 counterexample: page 1 fetches and parses fine (one advert) and
links to a second page whose fetch fails; with a page limit of 3,
`scrape` propagates the fetch failure to its caller instead of returning
the page-1 listings with one page visited. -/
theorem scrape_midway_failure_raises :
    scrape
        (fun s => if s = "p1" then
          some { offers := [{ model := "RTX 3080", price := 1500, state := State.used,
                              raw_title := "RTX 3080" }],
                 next := some "p2" }
          else none)
        3 "p1" =
      Except.error (FetchError.fetchFailed "p2") ∧
    scrape
        (fun s => if s = "p1" then
          some { offers := [{ model := "RTX 3080", price := 1500, state := State.used,
                              raw_title := "RTX 3080" }],
                 next := some "p2" }
          else none)
        3 "p1" ≠
      Except.ok ([{ model := "RTX 3080", price := 1500, state := State.used,
                    raw_title := "RTX 3080" }], 1) := by
  refine ⟨by rfl, ?_⟩
  intro h
  exact Except.noConfusion ((by rfl :
    scrape
        (fun s => if s = "p1" then
          some { offers := [{ model := "RTX 3080", price := 1500, state := State.used,
                              raw_title := "RTX 3080" }],
                 next := some "p2" }
          else none)
        3 "p1" =
      Except.error (FetchError.fetchFailed "p2")).symm.trans h)

/-- C5 amended: a failed fetch of a page after the first does not
preserve the accumulated listings — `scrape` closes the session (its
`try` has only a `finally`) and re-raises the fetch exception, so the
caller sees the error, not the partial results. -/
theorem scrape_propagates_fetch_failure
    (world : String → Option Page) (page_limit : Nat) (base_url u2 : String) (p0 : Page)
    (hlimit : 2 ≤ page_limit) (hbase : world base_url = some p0)
    (hnext : p0.next = some u2) (hfail : world u2 = none) :
    scrape world page_limit base_url = Except.error (FetchError.fetchFailed u2) := by
  obtain ⟨rem, rfl⟩ : ∃ rem, page_limit = rem + 2 := ⟨page_limit - 2, by omega⟩
  rw [scrape]
  rw [show rem + 2 = (rem + 1) + 1 from rfl]
  rw [scrapeLoop, hbase]
  simp only
  rw [hnext, scrapeLoop, hfail]

/-- C5 witness: the two-page world of the counterexample instantiates the
amended propagation theorem. -/
theorem scrape_propagates_fetch_failure_witness :
    scrape
        (fun s => if s = "q1" then some { offers := [], next := some "q2" } else none)
        3 "q1" =
      Except.error (FetchError.fetchFailed "q2") :=
  scrape_propagates_fetch_failure
    (fun s => if s = "q1" then some { offers := [], next := some "q2" } else none)
    3 "q1" "q2" { offers := [], next := some "q2" } (by omega) (by rfl) rfl (by rfl)

/-! ## Crawl termination (C6) -/

/-- A synthetic URL for the `i`-th page of a chain (URLs are opaque to
the loop; only identity matters). -/
def urlOf (i : Nat) : String :=
  String.mk (List.replicate i 'a')

/-- The length of a synthetic URL recovers its page index. -/
theorem urlOf_len (i : Nat) : (urlOf i).length = i := by
  show (List.replicate i 'a').length = i
  simp

/-- A finite linked chain of pages: page `i` carries the `i`-th offer
list and links forward to page `i + 1` while one exists; every fetch in
range succeeds. -/
def chainWorld (pages : List (List Advert)) : String → Option Page := fun s =>
  if h : s.length < pages.length then
    some { offers := pages.get ⟨s.length, h⟩,
           next := if s.length + 1 < pages.length then some (urlOf (s.length + 1)) else none }
  else none

/-- Fetching page `i` of a chain yields its offers and forward link. -/
theorem chainWorld_at (pages : List (List Advert)) (i : Nat) (h : i < pages.length) :
    chainWorld pages (urlOf i) =
      some { offers := pages.get ⟨i, h⟩,
             next := if i + 1 < pages.length then some (urlOf (i + 1)) else none } := by
  simp only [chainWorld, urlOf_len]
  rw [dif_pos h]

/-- Running the loop from page `i` of a finite chain visits exactly
`min rem (pages.length - i)` further pages. -/
theorem scrapeLoop_chain (pages : List (List Advert)) :
    ∀ (rem i parsed : Nat) (acc : List Advert), i < pages.length →
      ∃ advs, scrapeLoop (chainWorld pages) (some (urlOf i)) rem acc parsed =
        Except.ok (advs, parsed + min rem (pages.length - i)) := by
  intro rem
  induction rem with
  | zero =>
    intro i parsed acc h
    exact ⟨acc, by simp [scrapeLoop]⟩
  | succ rem ih =>
    intro i parsed acc h
    rw [scrapeLoop, chainWorld_at pages i h]
    simp only
    by_cases h2 : i + 1 < pages.length
    · rw [if_pos h2]
      obtain ⟨advs, ha⟩ := ih (i + 1) (parsed + 1) (acc ++ pages.get ⟨i, h⟩) h2
      have e : parsed + 1 + min rem (pages.length - (i + 1)) =
          parsed + min (rem + 1) (pages.length - i) := by omega
      rw [e] at ha
      exact ⟨advs, ha⟩
    · rw [if_neg h2]
      refine ⟨acc ++ pages.get ⟨i, h⟩, ?_⟩
      rw [scrapeLoop_none]
      have e : parsed + 1 = parsed + min (rem + 1) (pages.length - i) := by omega
      rw [← e]

/-- Running the loop over a world in which every fetch succeeds and every
page has a forward link visits exactly `rem` further pages. -/
theorem scrapeLoop_endless (world : String → Option Page)
    (hall : ∀ url, ∃ p, world url = some p ∧ p.next ≠ none) :
    ∀ (rem : Nat) (url : String) (acc : List Advert) (parsed : Nat),
      ∃ advs, scrapeLoop world (some url) rem acc parsed = Except.ok (advs, parsed + rem) := by
  intro rem
  induction rem with
  | zero => intro url acc parsed; exact ⟨acc, by simp [scrapeLoop]⟩
  | succ rem ih =>
    intro url acc parsed
    obtain ⟨p, hw, hn⟩ := hall url
    cases hp : p.next with
    | none => exact absurd hp hn
    | some u2 =>
      rw [scrapeLoop, hw]
      simp only
      rw [hp]
      obtain ⟨advs, ha⟩ := ih u2 (acc ++ p.offers) (parsed + 1)
      have e : parsed + 1 + rem = parsed + (rem + 1) := by omega
      rw [e] at ha
      exact ⟨advs, ha⟩

/-- C6: the crawl loop terminates after exactly `min L (chain length)`
pages — on a world where every page fetches successfully and links
onward (an endless chain) it stops at the page limit `L`, and on a
finite chain of `n` pages it stops at `min L n`, whichever bound is hit
first. -/
theorem scrape_visits_min_pages :
    (∀ (world : String → Option Page) (L : Nat) (base : String),
      (∀ url, ∃ p, world url = some p ∧ p.next ≠ none) →
      ∃ advs, scrape world L base = Except.ok (advs, L)) ∧
    (∀ (pages : List (List Advert)) (L : Nat), 0 < pages.length →
      ∃ advs, scrape (chainWorld pages) L (urlOf 0) =
        Except.ok (advs, min L pages.length)) := by
  constructor
  · intro world L base hall
    obtain ⟨advs, ha⟩ := scrapeLoop_endless world hall L base [] 0
    rw [Nat.zero_add] at ha
    exact ⟨advs, ha⟩
  · intro pages L hpos
    obtain ⟨advs, ha⟩ := scrapeLoop_chain pages L 0 0 [] hpos
    rw [Nat.zero_add, Nat.sub_zero] at ha
    exact ⟨advs, ha⟩

/-- C6 witness: with a page limit of 3 on a five-page chain, `scrape`
visits exactly 3 pages. -/
theorem scrape_visits_min_pages_witness :
    ∃ advs, scrape (chainWorld [[], [], [], [], []]) 3 (urlOf 0) =
      Except.ok (advs, min 3 ([[], [], [], [], []] : List (List Advert)).length) :=
  scrape_visits_min_pages.2 [[], [], [], [], []] 3 (by decide)

/-! ## The exporter (src/olx_scraper/olx_scraper.py, `AdvertExporter`)

The file system is abstracted as `fs : String → Option String` (path to
contents; `none` = no such file); `os.path.exists p` is `(fs p).isSome`.
The `while os.path.exists(filename)` loop is embedded with explicit fuel:
on a real (finite) file system the loop always terminates, and the C10
theorem is stated for any fuel past the first free candidate index. -/

/-- Index of the last occurrence of `c`, as used by `rfind`. -/
def rfindIdx (c : Char) : List Char → Option Nat
  | [] => none
  | x :: xs =>
    match rfindIdx c xs with
    | some i => some (i + 1)
    | none => if x = c then some 0 else none

/-- `os.path.splitext` (POSIX): split at the last dot when it comes after
the last path separator and the basename up to it is not made of dots
only; otherwise the extension is empty. -/
def splitext (p : String) : String × String :=
  let cs := p.data
  let sepIndex : Int := (rfindIdx '/' cs).elim (-1) (fun i => (i : Int))
  let dotIndex : Int := (rfindIdx '.' cs).elim (-1) (fun i => (i : Int))
  if sepIndex < dotIndex then
    if ((cs.drop (sepIndex + 1).toNat).take (dotIndex.toNat - (sepIndex + 1).toNat)).any
        (fun ch => ch ≠ '.') then
      (String.mk (cs.take dotIndex.toNat), String.mk (cs.drop dotIndex.toNat))
    else (p, "")
  else (p, "")

/-- The `n`-th candidate file name tried by `export_to_txt`: the original
`filename` for `n = 0`, then `f"{base_name}_{n}{extension}"`. -/
def candName (filename base ext : String) (n : Nat) : String :=
  if n = 0 then filename else base ++ "_" ++ Nat.repr n ++ ext

/-- The `while os.path.exists(filename)` loop: keep renaming to
`f"{base_name}_{counter}{extension}"` with an incrementing counter until
the name is free; `none` when the fuel runs out first. -/
def chooseLoop (ex : String → Bool) (base ext : String) : String → Nat → Nat → Option String
  | _, _, 0 => none
  | name, counter, fuel + 1 =>
    if ex name then chooseLoop ex base ext (base ++ "_" ++ Nat.repr counter ++ ext) (counter + 1) fuel
    else some name

/-- Decimal rendering of an integer, as `json.dumps` prints it. -/
def intRepr : Int → String
  | Int.ofNat n => Nat.repr n
  | Int.negSucc n => "-" ++ Nat.repr (n + 1)

/-- JSON string escaping for quote and backslash (models `json.dumps`
with `ensure_ascii=False` on text free of control characters). -/
def jsonEscape (s : String) : String :=
  String.mk (s.data.foldr (fun c acc => if c = '"' ∨ c = '\\' then '\\' :: c :: acc else c :: acc) [])

/-- The `StrEnum` value serialized for each `State` variant. -/
def stateStr : State → String
  | State.used => "used"
  | State.new => "new"
  | State.damaged => "broken"
  | State.error => "error"

/-- One advert's line: `json.dumps(advert.__dict__, ensure_ascii=False)`
over the dataclass fields in declaration order. -/
def advertLine (a : Advert) : String :=
  "\x7b\"model\": \"" ++ jsonEscape a.model ++ "\", \"price\": " ++ intRepr a.price ++
    ", \"state\": \"" ++ stateStr a.state ++ "\", \"raw_title\": \"" ++
    jsonEscape a.raw_title ++ "\"\x7d"

/-- The full contents written to the chosen file: one JSON line per
advert, in input order. -/
def exportContents (adverts : List Advert) : String :=
  String.join (adverts.map (fun a => advertLine a ++ "\n"))

/-- `AdvertExporter.export_to_txt`: pick the first free candidate name,
then write all advert lines to it.  Returns the chosen name and the
updated file system, or `none` when the fuel bound is hit. -/
def export_to_txt (fs : String → Option String) (adverts : List Advert) (filename : String)
    (fuel : Nat) : Option (String × (String → Option String)) :=
  match chooseLoop (fun p => (fs p).isSome) (splitext filename).1 (splitext filename).2
      filename 1 fuel with
  | none => none
  | some chosen =>
    some (chosen, fun p => if p = chosen then some (exportContents adverts) else fs p)

/-- The rename loop, started at candidate `j`, stops at the first free
candidate index `N ≥ j` whenever the fuel allows reaching it. -/
theorem chooseLoop_finds (ex : String → Bool) (filename base ext : String) :
    ∀ (fuel j N : Nat), j ≤ N → N - j < fuel →
      (∀ i, j ≤ i → i < N → ex (candName filename base ext i) = true) →
      ex (candName filename base ext N) = false →
      chooseLoop ex base ext (candName filename base ext j) (j + 1) fuel =
        some (candName filename base ext N) := by
  intro fuel
  induction fuel with
  | zero => intro j N h1 h2 _ _; omega
  | succ fuel ih =>
    intro j N hjN hfuel hall hN
    rw [chooseLoop]
    by_cases hj : j = N
    · subst hj
      rw [hN]
      simp
    · have hlt : j < N := by omega
      rw [hall j (le_refl j) hlt]
      simp only [if_true]
      have hc : base ++ "_" ++ Nat.repr (j + 1) ++ ext = candName filename base ext (j + 1) := by
        simp [candName]
      rw [hc]
      exact ih (j + 1) N (by omega) (by omega) (fun i hi1 hi2 => hall i (by omega) hi2) hN

/-- C10: `export_to_txt` never overwrites — it writes to the candidate
name `candName filename base ext N` for the least `N` whose path does not
exist (the original name when it is free, `"<base>_<N><ext>"` with the
smallest such positive `N` otherwise), every pre-existing file keeps its
contents, and the chosen file receives one JSON line per advert in input
order. -/
theorem export_to_txt_no_overwrite (fs : String → Option String) (adverts : List Advert)
    (filename : String) (fuel : Nat)
    (h : ∃ n, fs (candName filename (splitext filename).1 (splitext filename).2 n) = none)
    (hfuel : Nat.find h < fuel) :
    ∃ g, export_to_txt fs adverts filename fuel =
        some (candName filename (splitext filename).1 (splitext filename).2 (Nat.find h), g) ∧
      g (candName filename (splitext filename).1 (splitext filename).2 (Nat.find h)) =
        some (exportContents adverts) ∧
      ∀ p, (fs p).isSome = true → g p = fs p := by
  have hNnone : fs (candName filename (splitext filename).1 (splitext filename).2 (Nat.find h)) =
      none := Nat.find_spec h
  have hex : (fun p => (fs p).isSome)
      (candName filename (splitext filename).1 (splitext filename).2 (Nat.find h)) = false := by
    simp only [hNnone, Option.isSome_none]
  have hall : ∀ i, 0 ≤ i → i < Nat.find h →
      (fun p => (fs p).isSome)
        (candName filename (splitext filename).1 (splitext filename).2 i) = true := by
    intro i _ hi
    have hne := Nat.find_min h hi
    cases hfs : fs (candName filename (splitext filename).1 (splitext filename).2 i) with
    | none => exact absurd hfs hne
    | some v => simp only [hfs, Option.isSome_some]
  have hchoose := chooseLoop_finds (fun p => (fs p).isSome) filename
    (splitext filename).1 (splitext filename).2 fuel 0 (Nat.find h)
    (by omega) (by omega) hall hex
  rw [show candName filename (splitext filename).1 (splitext filename).2 0 = filename from rfl]
    at hchoose
  simp only [Nat.zero_add] at hchoose
  refine ⟨fun p =>
      if p = candName filename (splitext filename).1 (splitext filename).2 (Nat.find h) then
        some (exportContents adverts)
      else fs p, ?_, ?_, ?_⟩
  · rw [export_to_txt, hchoose]
  · simp
  · intro p hp
    have hne : p ≠ candName filename (splitext filename).1 (splitext filename).2 (Nat.find h) := by
      intro he
      rw [he, hNnone] at hp
      exact Bool.noConfusion hp
    simp only []
    rw [if_neg hne]

/-- C10 witness: exporting to the default name while
`"adverts_export.txt"` already exists writes `"adverts_export_1.txt"`
instead, fills it with the advert's JSON line, and leaves the existing
file's contents untouched. -/
theorem export_to_txt_no_overwrite_witness :
    ∃ g, export_to_txt (fun p => if p = "adverts_export.txt" then some "OLD" else none)
        [{ model := "RTX 3080", price := 1500, state := State.used, raw_title := "RTX 3080" }]
        "adverts_export.txt" 2 =
        some ("adverts_export_1.txt", g) ∧
      g "adverts_export_1.txt" =
        some (exportContents
          [{ model := "RTX 3080", price := 1500, state := State.used, raw_title := "RTX 3080" }]) ∧
      ∀ p, ((fun p => if p = "adverts_export.txt" then some "OLD" else none) p).isSome = true →
        g p = (fun p => if p = "adverts_export.txt" then some "OLD" else none) p := by
  have h : ∃ n, (fun p => if p = "adverts_export.txt" then some "OLD" else none)
      (candName "adverts_export.txt" (splitext "adverts_export.txt").1
        (splitext "adverts_export.txt").2 n) = none := ⟨1, by decide⟩
  have hfind : Nat.find h = 1 := by
    rw [Nat.find_eq_iff]
    refine ⟨by decide, ?_⟩
    intro m hm
    have hm0 : m = 0 := by omega
    subst hm0
    decide
  have ht := export_to_txt_no_overwrite
    (fun p => if p = "adverts_export.txt" then some "OLD" else none)
    [{ model := "RTX 3080", price := 1500, state := State.used, raw_title := "RTX 3080" }]
    "adverts_export.txt" 2 h (by rw [hfind]; omega)
  rw [hfind] at ht
  have hc : candName "adverts_export.txt" (splitext "adverts_export.txt").1
      (splitext "adverts_export.txt").2 1 = "adverts_export_1.txt" := by decide
  rw [hc] at ht
  exact ht

end OlxScraper
